import Mathlib

/-!
Verification of the pomodoro timer core (`timer.js`) of TheLastOneNT/pomodoro-js.

The timer core is a single mutable state machine. We embed it shallowly:
`TimerState` mirrors the `timerState` object, and the module-level ticker
(`tickerId` plus the `setInterval` sources it manages) is modelled by a
`tracked : Bool` flag (whether `tickerId` is non-null) together with a
`live : Nat` count of interval sources that are actually running.
JavaScript numbers are modelled as `Int` (all arithmetic here is integral):
`Math.max` is `max`, and the truthiness test `x || y` on a number `x`
is `if x = 0 then y else x`.

Audio calls (`playModeSwitchSound`, `startMetronome`, …) are fire-and-forget
notifications that never touch `timerState` or `tickerId`; they are omitted,
as are the emitted messages.  `getPlanSettings()` and `getPreferences()` read
an external store, so every operation takes the `Plan`/`Preferences` it would
read as an explicit argument.
-/

namespace Pomodoro

/-- The plan read from the external store: `{focusMinutes, relaxMinutes, cycles}`. -/
structure Plan where
  focusMinutes : Int
  relaxMinutes : Int
  cycles : Int
  deriving DecidableEq, Repr

/-- The preferences read from the external store: `{autoCycle, sound}`. -/
structure Preferences where
  autoCycle : Bool
  sound : Bool
  deriving DecidableEq, Repr

/-- `timerState.status`: "ready" | "running" | "paused" | "waiting". -/
inductive Status where
  | ready
  | running
  | paused
  | waiting
  deriving DecidableEq, Repr

/-- `timerState.phase`: "focus" | "relax". -/
inductive Phase where
  | focus
  | relax
  deriving DecidableEq, Repr

/-- The `timerState` object of `timer.js`. -/
structure TimerState where
  status : Status
  phase : Phase
  remainingSeconds : Int
  durationSeconds : Int
  cyclesLeft : Int
  totalCycles : Int
  isRunning : Bool
  deriving DecidableEq, Repr

/-- The whole timer module: the `timerState` object plus the ticking
mechanism.  `tracked` is whether `tickerId` is non-null; `live` counts the
interval sources currently firing (a source outlives `tickerId` only if the
module were to lose track of it, which the proofs below rule out). -/
structure Core where
  st : TimerState
  tracked : Bool
  live : Nat
  deriving DecidableEq, Repr

/-- `initializeFromPlan()`: reset every `timerState` field from the plan. -/
def initializeFromPlan (plan : Plan) : TimerState where
  status := .ready
  phase := .focus
  durationSeconds := plan.focusMinutes * 60
  remainingSeconds := plan.focusMinutes * 60
  cyclesLeft := plan.cycles
  totalCycles := plan.cycles
  isRunning := false

/-- The module state right after load: `initializeFromPlan()` has run and no
interval has been started (`tickerId = null`). -/
def initCore (plan : Plan) : Core where
  st := initializeFromPlan plan
  tracked := false
  live := 0

/-- `clearTicker()`: if `tickerId` is non-null, `clearInterval` it and null it
out; otherwise do nothing. -/
def clearTicker (c : Core) : Core :=
  if c.tracked then { c with tracked := false, live := c.live - 1 } else c

/-- `startTicker()`: `clearTicker()` then `setInterval(handleTick, 1000)`. -/
def startTicker (c : Core) : Core :=
  let c := clearTicker c
  { c with tracked := true, live := c.live + 1 }

/-- `calculateTotalRemaining()`, reading the current plan. -/
def calculateTotalRemaining (plan : Plan) (s : TimerState) : Int :=
  let focusSeconds := plan.focusMinutes * 60
  let relaxSeconds := plan.relaxMinutes * 60
  let cycles := max s.cyclesLeft 0
  if s.status = .ready then
    cycles * (focusSeconds + relaxSeconds)
  else if s.phase = .focus then
    s.remainingSeconds + relaxSeconds + max (cycles - 1) 0 * (focusSeconds + relaxSeconds)
  else
    s.remainingSeconds + max (cycles - 1) 0 * (focusSeconds + relaxSeconds)

/-- `prepareWaitingState()`: enter "waiting" with the next focus phase
pre-loaded from the current plan.  (Ticker untouched.) -/
def prepareWaitingState (plan : Plan) (c : Core) : Core :=
  { c with st := { c.st with
      status := .waiting
      phase := .focus
      durationSeconds := plan.focusMinutes * 60
      remainingSeconds := plan.focusMinutes * 60
      isRunning := false } }

/-- `startFocus()`: enter "running"/"focus"; `remainingSeconds` keeps its
value unless it is falsy (`remainingSeconds || durationSeconds`), in which
case the fresh duration is used; then `startTicker()`. -/
def startFocus (plan : Plan) (c : Core) : Core :=
  let d := plan.focusMinutes * 60
  let r := if c.st.remainingSeconds = 0 then d else c.st.remainingSeconds
  startTicker { c with st := { c.st with
      status := .running
      phase := .focus
      durationSeconds := d
      remainingSeconds := r
      isRunning := true } }

/-- `startRelax()`: enter "running"/"relax" with the relax duration from the
current plan; then `startTicker()`. -/
def startRelax (plan : Plan) (c : Core) : Core :=
  startTicker { c with st := { c.st with
      status := .running
      phase := .relax
      durationSeconds := plan.relaxMinutes * 60
      remainingSeconds := plan.relaxMinutes * 60
      isRunning := true } }

/-- `handlePhaseCompletion()`: clear the ticker, floor `remainingSeconds`
to 0, and decide the next state (relax after focus; after relax decrement
`cyclesLeft` and either finish the plan, auto-start the next focus, or wait). -/
def handlePhaseCompletion (plan : Plan) (prefs : Preferences) (c : Core) : Core :=
  let c := clearTicker c
  let c : Core := { c with st := { c.st with remainingSeconds := 0, isRunning := false } }
  if c.st.phase = .focus then
    startRelax plan c
  else
    let c : Core := { c with st := { c.st with cyclesLeft := max (c.st.cyclesLeft - 1) 0 } }
    if c.st.cyclesLeft ≤ 0 then
      { c with st := initializeFromPlan plan }
    else if prefs.autoCycle then
      startFocus plan c
    else
      prepareWaitingState plan c

/-- `handleTick()`: the per-second callback.  If `remainingSeconds` is already
≤ 0, complete the phase; otherwise decrement and, if that reaches 0, complete
the phase. -/
def handleTick (plan : Plan) (prefs : Preferences) (c : Core) : Core :=
  if c.st.remainingSeconds ≤ 0 then
    handlePhaseCompletion plan prefs c
  else
    let c : Core := { c with st := { c.st with remainingSeconds := c.st.remainingSeconds - 1 } }
    if c.st.remainingSeconds ≤ 0 then
      handlePhaseCompletion plan prefs c
    else
      c

/-- `n` consecutive firings of the tick callback. -/
def ticks (plan : Plan) (prefs : Preferences) (n : Nat) (c : Core) : Core :=
  (handleTick plan prefs)^[n] c

/-- `pauseTimer()`: clear the ticker and enter "paused". -/
def pauseTimer (c : Core) : Core :=
  let c := clearTicker c
  { c with st := { c.st with status := .paused, isRunning := false } }

/-- `resumeTimer()`: re-enter "running" in the same phase and restart the
ticker. -/
def resumeTimer (c : Core) : Core :=
  startTicker { c with st := { c.st with status := .running, isRunning := true } }

/-- `performPrimaryAction()`: pause when running, resume when paused,
continue (start the next focus) when waiting, start when ready. -/
def performPrimaryAction (plan : Plan) (c : Core) : Core :=
  if c.st.status = .running then
    pauseTimer c
  else if c.st.status = .paused then
    resumeTimer c
  else if c.st.status = .waiting then
    startFocus plan c
  else
    startFocus plan c

/-- `resetTimer()`: clear the ticker and re-initialize from the current plan. -/
def resetTimer (plan : Plan) (c : Core) : Core :=
  let c := clearTicker c
  { c with st := initializeFromPlan plan }

/-- `applyPlanSettings()`: identical state effect to `resetTimer()` (clear the
ticker, re-initialize from the now-current plan). -/
def applyPlanSettings (plan : Plan) (c : Core) : Core :=
  let c := clearTicker c
  { c with st := initializeFromPlan plan }

/-- States the module can be in: the freshly loaded module, closed under the
exported intents and under tick firings (a tick can only fire while an
interval source is live).  The plan/preferences stores may change arbitrarily
between steps, so each step reads fresh values. -/
inductive Reachable : Core → Prop where
  | init (plan : Plan) : Reachable (initCore plan)
  | primary (plan : Plan) (c : Core) :
      Reachable c → Reachable (performPrimaryAction plan c)
  | tick (plan : Plan) (prefs : Preferences) (c : Core) :
      Reachable c → 0 < c.live → Reachable (handleTick plan prefs c)
  | reset (plan : Plan) (c : Core) :
      Reachable c → Reachable (resetTimer plan c)
  | apply (plan : Plan) (c : Core) :
      Reachable c → Reachable (applyPlanSettings plan c)

/-- Reachability when the plan and preferences stores never change between
operations (the plan is only ever re-read, never different). -/
inductive ReachableFixed (plan : Plan) : Core → Prop where
  | init : ReachableFixed plan (initCore plan)
  | primary (c : Core) :
      ReachableFixed plan c → ReachableFixed plan (performPrimaryAction plan c)
  | tick (prefs : Preferences) (c : Core) :
      ReachableFixed plan c → 0 < c.live →
      ReachableFixed plan (handleTick plan prefs c)
  | reset (c : Core) :
      ReachableFixed plan c → ReachableFixed plan (resetTimer plan c)
  | apply (c : Core) :
      ReachableFixed plan c → ReachableFixed plan (applyPlanSettings plan c)

/-! ### Basic facts about single ticks and runs of ticks -/

theorem handleTick_decr (plan : Plan) (prefs : Preferences) (c : Core)
    (h : 1 < c.st.remainingSeconds) :
    handleTick plan prefs c =
      { c with st := { c.st with remainingSeconds := c.st.remainingSeconds - 1 } } := by
  have h0 : ¬ c.st.remainingSeconds ≤ 0 := by omega
  have h1 : ¬ c.st.remainingSeconds - 1 ≤ 0 := by omega
  simp [handleTick, h0, h1]

theorem handleTick_one (plan : Plan) (prefs : Preferences) (c : Core)
    (h : c.st.remainingSeconds = 1) :
    handleTick plan prefs c =
      handlePhaseCompletion plan prefs
        { c with st := { c.st with remainingSeconds := 0 } } := by
  have h0 : ¬ c.st.remainingSeconds ≤ 0 := by omega
  simp [handleTick, h0, h]

theorem ticks_succ (plan : Plan) (prefs : Preferences) (n : Nat) (c : Core) :
    ticks plan prefs (n + 1) c = ticks plan prefs n (handleTick plan prefs c) :=
  Function.iterate_succ_apply _ _ _

theorem ticks_succ' (plan : Plan) (prefs : Preferences) (n : Nat) (c : Core) :
    ticks plan prefs (n + 1) c = handleTick plan prefs (ticks plan prefs n c) :=
  Function.iterate_succ_apply' _ _ _

theorem ticks_add (plan : Plan) (prefs : Preferences) (m n : Nat) (c : Core) :
    ticks plan prefs (m + n) c = ticks plan prefs m (ticks plan prefs n c) :=
  Function.iterate_add_apply _ _ _ _

/-- While more than `n` seconds remain, `n` ticks just count down `n` seconds
and change nothing else. -/
theorem ticks_run (plan : Plan) (prefs : Preferences) (n : Nat) (c : Core)
    (h : (n : Int) < c.st.remainingSeconds) :
    ticks plan prefs n c =
      { c with st := { c.st with remainingSeconds := c.st.remainingSeconds - n } } := by
  induction n generalizing c with
  | zero => simp [ticks]
  | succ k ih =>
    have hk1 : ((k : Int) + 1) < c.st.remainingSeconds := by exact_mod_cast h
    rw [ticks_succ, handleTick_decr plan prefs c (by omega)]
    rw [ih _ (by simpa using by omega)]
    have hsub : c.st.remainingSeconds - 1 - (k : Int)
        = c.st.remainingSeconds - ((k : Nat) + 1 : Nat) := by push_cast; ring
    simp [hsub]

/-- When exactly `n ≥ 1` seconds remain, `n` ticks count down to zero and then
run the phase-completion handler. -/
theorem ticks_boundary (plan : Plan) (prefs : Preferences) (n : Nat) (c : Core)
    (hn : 1 ≤ n) (h : c.st.remainingSeconds = (n : Int)) :
    ticks plan prefs n c =
      handlePhaseCompletion plan prefs
        { c with st := { c.st with remainingSeconds := 0 } } := by
  obtain ⟨m, rfl⟩ : ∃ m, n = m + 1 := ⟨n - 1, by omega⟩
  rw [ticks_succ', ticks_run plan prefs m c (by rw [h]; exact_mod_cast Nat.lt_succ_self m)]
  rw [handleTick_one plan prefs _ (by simp [h])]

/-! ### Computing the phase-completion handler on each kind of input -/

/-- Completing a focus phase starts the relax phase. -/
theorem completion_focus (plan : Plan) (prefs : Preferences) (c : Core)
    (hph : c.st.phase = .focus) (ht : c.tracked = true) (hl : c.live = 1) :
    handlePhaseCompletion plan prefs c =
      ⟨{ status := .running, phase := .relax,
         remainingSeconds := plan.relaxMinutes * 60,
         durationSeconds := plan.relaxMinutes * 60,
         cyclesLeft := c.st.cyclesLeft, totalCycles := c.st.totalCycles,
         isRunning := true }, true, 1⟩ := by
  simp [handlePhaseCompletion, clearTicker, startRelax, startTicker, hph, ht, hl]

/-- Completing the final relax phase re-initializes from the current plan. -/
theorem completion_relax_done (plan : Plan) (prefs : Preferences) (c : Core)
    (hph : c.st.phase = .relax) (hcl : c.st.cyclesLeft ≤ 1)
    (ht : c.tracked = true) (hl : c.live = 1) :
    handlePhaseCompletion plan prefs c = initCore plan := by
  have hmax : max (c.st.cyclesLeft - 1) 0 = 0 := by omega
  simp [handlePhaseCompletion, clearTicker, initCore, hph, ht, hl, hmax]

/-- Completing a non-final relax phase with auto-cycle on starts the next
focus phase immediately. -/
theorem completion_relax_auto (plan : Plan) (prefs : Preferences) (c : Core)
    (hph : c.st.phase = .relax) (hcl : 2 ≤ c.st.cyclesLeft)
    (hauto : prefs.autoCycle = true) (ht : c.tracked = true) (hl : c.live = 1) :
    handlePhaseCompletion plan prefs c =
      ⟨{ status := .running, phase := .focus,
         remainingSeconds := plan.focusMinutes * 60,
         durationSeconds := plan.focusMinutes * 60,
         cyclesLeft := c.st.cyclesLeft - 1, totalCycles := c.st.totalCycles,
         isRunning := true }, true, 1⟩ := by
  have hmax : max (c.st.cyclesLeft - 1) 0 = c.st.cyclesLeft - 1 := by omega
  have hne : ¬ c.st.cyclesLeft - 1 ≤ 0 := by omega
  simp [handlePhaseCompletion, clearTicker, startFocus, startTicker, hph, ht, hl,
    hmax, hne, hauto]

/-- Completing a non-final relax phase with auto-cycle off enters the waiting
state with the next focus phase pre-loaded. -/
theorem completion_relax_wait (plan : Plan) (prefs : Preferences) (c : Core)
    (hph : c.st.phase = .relax) (hcl : 2 ≤ c.st.cyclesLeft)
    (hauto : prefs.autoCycle = false) (ht : c.tracked = true) (hl : c.live = 1) :
    handlePhaseCompletion plan prefs c =
      ⟨{ status := .waiting, phase := .focus,
         remainingSeconds := plan.focusMinutes * 60,
         durationSeconds := plan.focusMinutes * 60,
         cyclesLeft := c.st.cyclesLeft - 1, totalCycles := c.st.totalCycles,
         isRunning := false }, false, 0⟩ := by
  have hmax : max (c.st.cyclesLeft - 1) 0 = c.st.cyclesLeft - 1 := by omega
  have hne : ¬ c.st.cyclesLeft - 1 ≤ 0 := by omega
  simp [handlePhaseCompletion, clearTicker, prepareWaitingState, hph, ht, hl,
    hmax, hne, hauto]

/-- The primary action on the freshly loaded module starts the focus phase. -/
theorem primary_from_init (plan : Plan) :
    performPrimaryAction plan (initCore plan) =
      ⟨{ status := .running, phase := .focus,
         remainingSeconds := plan.focusMinutes * 60,
         durationSeconds := plan.focusMinutes * 60,
         cyclesLeft := plan.cycles, totalCycles := plan.cycles,
         isRunning := true }, true, 1⟩ := by
  simp [performPrimaryAction, initCore, initializeFromPlan, startFocus, startTicker,
    clearTicker]

/-! ### C1 -/

/-- C1: for every plan with positive `focusMinutes`, `relaxMinutes` and
`cycles`, immediately after `initializeFromPlan` the state has
status `ready`, phase `focus`, `remainingSeconds = durationSeconds =
focusMinutes * 60`, `cyclesLeft = totalCycles = cycles`, and
`isRunning = false`. -/
theorem init_spec (plan : Plan) (hF : 0 < plan.focusMinutes)
    (hR : 0 < plan.relaxMinutes) (hC : 0 < plan.cycles) :
    (initializeFromPlan plan).status = .ready ∧
    (initializeFromPlan plan).phase = .focus ∧
    (initializeFromPlan plan).remainingSeconds = plan.focusMinutes * 60 ∧
    (initializeFromPlan plan).durationSeconds = plan.focusMinutes * 60 ∧
    (initializeFromPlan plan).cyclesLeft = plan.cycles ∧
    (initializeFromPlan plan).totalCycles = plan.cycles ∧
    (initializeFromPlan plan).isRunning = false := by
  simp [initializeFromPlan]

/-- Witness for C1 at the default plan `{focusMinutes = 25, relaxMinutes = 5,
cycles = 4}`. -/
theorem init_spec_witness :
    (0 : Int) < 25 ∧ (0 : Int) < 5 ∧ (0 : Int) < 4 ∧
    ((initializeFromPlan ⟨25, 5, 4⟩).status = .ready ∧
     (initializeFromPlan ⟨25, 5, 4⟩).phase = .focus ∧
     (initializeFromPlan ⟨25, 5, 4⟩).remainingSeconds = (25 : Int) * 60 ∧
     (initializeFromPlan ⟨25, 5, 4⟩).durationSeconds = (25 : Int) * 60 ∧
     (initializeFromPlan ⟨25, 5, 4⟩).cyclesLeft = 4 ∧
     (initializeFromPlan ⟨25, 5, 4⟩).totalCycles = 4 ∧
     (initializeFromPlan ⟨25, 5, 4⟩).isRunning = false) :=
  ⟨by decide, by decide, by decide,
    init_spec ⟨25, 5, 4⟩ (by decide) (by decide) (by decide)⟩

/-! ### C2 -/

/-- C2: from the freshly initialized ready state, starting the timer and
firing the tick handler exactly `focusMinutes * 60` times leaves the timer
running the relax phase with `remainingSeconds = durationSeconds =
relaxMinutes * 60` (the plan unchanged throughout). -/
theorem focus_ticks_to_relax (plan : Plan) (prefs : Preferences) (f : Nat)
    (hf : plan.focusMinutes = (f : Int)) (hf1 : 1 ≤ f)
    (hR : 0 < plan.relaxMinutes) (hC : 0 < plan.cycles) :
    ticks plan prefs (f * 60) (performPrimaryAction plan (initCore plan)) =
      ⟨{ status := .running, phase := .relax,
         remainingSeconds := plan.relaxMinutes * 60,
         durationSeconds := plan.relaxMinutes * 60,
         cyclesLeft := plan.cycles, totalCycles := plan.cycles,
         isRunning := true }, true, 1⟩ := by
  rw [primary_from_init]
  rw [ticks_boundary plan prefs (f * 60) _ (by omega) (by simp [hf])]
  rw [completion_focus plan prefs _ (by simp) (by simp) (by simp)]

/-- Witness for C2 at the plan `{focusMinutes = 1, relaxMinutes = 5,
cycles = 2}`: 60 ticks after start reach the relax phase. -/
theorem focus_ticks_to_relax_witness :
    (Plan.mk 1 5 2).focusMinutes = ((1 : Nat) : Int) ∧ 1 ≤ 1 ∧
    (0 : Int) < 5 ∧ (0 : Int) < 2 ∧
    ticks ⟨1, 5, 2⟩ ⟨true, true⟩ (1 * 60)
        (performPrimaryAction ⟨1, 5, 2⟩ (initCore ⟨1, 5, 2⟩)) =
      ⟨{ status := .running, phase := .relax,
         remainingSeconds := (5 : Int) * 60,
         durationSeconds := (5 : Int) * 60,
         cyclesLeft := 2, totalCycles := 2,
         isRunning := true }, true, 1⟩ :=
  ⟨by decide, by decide, by decide, by decide,
    focus_ticks_to_relax ⟨1, 5, 2⟩ ⟨true, true⟩ 1 (by decide) (by decide)
      (by decide) (by decide)⟩

/-! ### C3 -/

/-- One full focus+relax pair of ticks while running the focus phase with
`k ≥ 1` cycles left and auto-cycle on: either the plan finishes (`k = 1`) or
the next focus phase is running with one cycle fewer left. -/
theorem ticks_pair (plan : Plan) (prefs : Preferences) (f r : Nat) (k tc : Int)
    (hf : plan.focusMinutes = (f : Int)) (hr : plan.relaxMinutes = (r : Int))
    (hf1 : 1 ≤ f) (hr1 : 1 ≤ r) (hk : 1 ≤ k) (hauto : prefs.autoCycle = true) :
    ticks plan prefs (r * 60 + f * 60)
      ⟨{ status := .running, phase := .focus,
         remainingSeconds := plan.focusMinutes * 60,
         durationSeconds := plan.focusMinutes * 60,
         cyclesLeft := k, totalCycles := tc, isRunning := true }, true, 1⟩ =
      (if k = 1 then initCore plan
       else ⟨{ status := .running, phase := .focus,
               remainingSeconds := plan.focusMinutes * 60,
               durationSeconds := plan.focusMinutes * 60,
               cyclesLeft := k - 1, totalCycles := tc,
               isRunning := true }, true, 1⟩) := by
  rw [ticks_add]
  rw [ticks_boundary plan prefs (f * 60) _ (by omega) (by simp [hf])]
  rw [completion_focus plan prefs _ (by simp) (by simp) (by simp)]
  rw [ticks_boundary plan prefs (r * 60) _ (by omega) (by simp [hr])]
  rcases eq_or_lt_of_le hk with h1 | h2
  · rw [if_pos h1.symm]
    exact completion_relax_done plan prefs _ (by simp) (by simp [← h1]) (by simp) (by simp)
  · rw [if_neg (by omega)]
    exact completion_relax_auto plan prefs _ (by simp) (by simpa using by omega)
      hauto (by simp) (by simp)

/-- Running the focus phase with `n ≥ 1` cycles left and auto-cycle on,
`n` full pairs of ticks finish the plan and re-initialize. -/
theorem ticks_pairs (plan : Plan) (prefs : Preferences) (f r n : Nat) (tc : Int)
    (hf : plan.focusMinutes = (f : Int)) (hr : plan.relaxMinutes = (r : Int))
    (hf1 : 1 ≤ f) (hr1 : 1 ≤ r) (hn : 1 ≤ n) (hauto : prefs.autoCycle = true) :
    ticks plan prefs (n * (r * 60 + f * 60))
      ⟨{ status := .running, phase := .focus,
         remainingSeconds := plan.focusMinutes * 60,
         durationSeconds := plan.focusMinutes * 60,
         cyclesLeft := (n : Int), totalCycles := tc, isRunning := true }, true, 1⟩ =
      initCore plan := by
  induction n with
  | zero => omega
  | succ m ih =>
    rcases Nat.eq_zero_or_pos m with hm | hm
    · subst hm
      simpa using ticks_pair plan prefs f r 1 tc hf hr hf1 hr1 (by omega) hauto
    · rw [Nat.succ_mul, ticks_add]
      rw [ticks_pair plan prefs f r (m + 1 : Nat) tc hf hr hf1 hr1
        (by exact_mod_cast Nat.succ_le_succ (Nat.zero_le m)) hauto]
      rw [if_neg (by exact_mod_cast by omega)]
      have hcast : ((m : Int) + 1) - 1 = (m : Int) := by ring
      push_cast
      rw [hcast]
      push_cast at ih
      exact ih hm

/-- C3: with auto-cycle on and a plan of `n ≥ 1` cycles (positive focus and
relax minutes), starting the timer from the freshly initialized ready state
and firing the tick handler `n * (focusMinutes*60 + relaxMinutes*60)` times
(one focus+relax pair per cycle) returns the module exactly to the freshly
initialized state: status `ready`, phase `focus`, `cyclesLeft = totalCycles =
cycles`, `remainingSeconds = durationSeconds = focusMinutes * 60`, no ticker. -/
theorem full_plan_exhaustion (plan : Plan) (prefs : Preferences) (f r n : Nat)
    (hf : plan.focusMinutes = (f : Int)) (hr : plan.relaxMinutes = (r : Int))
    (hn : plan.cycles = (n : Int)) (hf1 : 1 ≤ f) (hr1 : 1 ≤ r) (hn1 : 1 ≤ n)
    (hauto : prefs.autoCycle = true) :
    ticks plan prefs (n * (r * 60 + f * 60))
        (performPrimaryAction plan (initCore plan)) = initCore plan ∧
    (initCore plan).st.status = .ready ∧
    (initCore plan).st.phase = .focus ∧
    (initCore plan).st.cyclesLeft = plan.cycles ∧
    (initCore plan).st.remainingSeconds = plan.focusMinutes * 60 ∧
    (initCore plan).st.durationSeconds = plan.focusMinutes * 60 ∧
    (initCore plan).st.isRunning = false ∧
    (initCore plan).live = 0 := by
  refine ⟨?_, by simp [initCore, initializeFromPlan], by simp [initCore, initializeFromPlan],
    by simp [initCore, initializeFromPlan], by simp [initCore, initializeFromPlan],
    by simp [initCore, initializeFromPlan], by simp [initCore, initializeFromPlan],
    by simp [initCore]⟩
  rw [primary_from_init, hn]
  exact ticks_pairs plan prefs f r n (n : Int) hf hr hf1 hr1 hn1 hauto

/-- Witness for C3 at the plan `{focusMinutes = 1, relaxMinutes = 1,
cycles = 2}` with auto-cycle on: 240 ticks after start return to the fresh
state. -/
theorem full_plan_exhaustion_witness :
    (Plan.mk 1 1 2).focusMinutes = ((1 : Nat) : Int) ∧
    (Plan.mk 1 1 2).relaxMinutes = ((1 : Nat) : Int) ∧
    (Plan.mk 1 1 2).cycles = ((2 : Nat) : Int) ∧
    1 ≤ 1 ∧ 1 ≤ 1 ∧ 1 ≤ 2 ∧ (Preferences.mk true true).autoCycle = true ∧
    (ticks ⟨1, 1, 2⟩ ⟨true, true⟩ (2 * (1 * 60 + 1 * 60))
        (performPrimaryAction ⟨1, 1, 2⟩ (initCore ⟨1, 1, 2⟩)) = initCore ⟨1, 1, 2⟩ ∧
      (initCore (Plan.mk 1 1 2)).st.status = .ready ∧
      (initCore (Plan.mk 1 1 2)).st.phase = .focus ∧
      (initCore (Plan.mk 1 1 2)).st.cyclesLeft = (Plan.mk 1 1 2).cycles ∧
      (initCore (Plan.mk 1 1 2)).st.remainingSeconds = (Plan.mk 1 1 2).focusMinutes * 60 ∧
      (initCore (Plan.mk 1 1 2)).st.durationSeconds = (Plan.mk 1 1 2).focusMinutes * 60 ∧
      (initCore (Plan.mk 1 1 2)).st.isRunning = false ∧
      (initCore (Plan.mk 1 1 2)).live = 0) :=
  ⟨by decide, by decide, by decide, by decide, by decide, by decide, by decide,
    full_plan_exhaustion ⟨1, 1, 2⟩ ⟨true, true⟩ 1 1 2 (by decide) (by decide)
      (by decide) (by decide) (by decide) (by decide) (by decide)⟩

/-! ### C4 -/

/-- C4: with auto-cycle off, completing a relax phase that still leaves
cycles after the decrement enters the waiting state with the next focus
phase pre-loaded (`durationSeconds = remainingSeconds = focusMinutes * 60`),
and the continue intent (the primary action) from waiting starts the focus
phase running with that pre-loaded `remainingSeconds`. -/
theorem waiting_then_continue (plan : Plan) (prefs : Preferences) (c : Core)
    (hph : c.st.phase = .relax) (hcl : 2 ≤ c.st.cyclesLeft)
    (hauto : prefs.autoCycle = false) (ht : c.tracked = true) (hl : c.live = 1)
    (hF : 0 < plan.focusMinutes) :
    (handlePhaseCompletion plan prefs c).st.status = .waiting ∧
    (handlePhaseCompletion plan prefs c).st.phase = .focus ∧
    (handlePhaseCompletion plan prefs c).st.durationSeconds = plan.focusMinutes * 60 ∧
    (handlePhaseCompletion plan prefs c).st.remainingSeconds = plan.focusMinutes * 60 ∧
    0 < (handlePhaseCompletion plan prefs c).st.cyclesLeft ∧
    (performPrimaryAction plan (handlePhaseCompletion plan prefs c)).st.status = .running ∧
    (performPrimaryAction plan (handlePhaseCompletion plan prefs c)).st.phase = .focus ∧
    (performPrimaryAction plan (handlePhaseCompletion plan prefs c)).st.remainingSeconds
      = plan.focusMinutes * 60 := by
  have hne : ¬ plan.focusMinutes * 60 = 0 := by omega
  rw [completion_relax_wait plan prefs c hph hcl hauto ht hl]
  refine ⟨rfl, rfl, rfl, rfl, by simpa using by omega, ?_, ?_, ?_⟩ <;>
    simp [performPrimaryAction, startFocus, startTicker, clearTicker, hne]

/-- Witness for C4: a running relax phase with 2 cycles left completes under
auto-cycle off, then continue restarts focus. -/
theorem waiting_then_continue_witness :
    (Core.mk ⟨.running, .relax, 0, 300, 2, 4, true⟩ true 1).st.phase = .relax ∧
    2 ≤ (Core.mk ⟨.running, .relax, 0, 300, 2, 4, true⟩ true 1).st.cyclesLeft ∧
    (Preferences.mk false true).autoCycle = false ∧
    (Core.mk ⟨.running, .relax, 0, 300, 2, 4, true⟩ true 1).tracked = true ∧
    (Core.mk ⟨.running, .relax, 0, 300, 2, 4, true⟩ true 1).live = 1 ∧
    (0 : Int) < (Plan.mk 25 5 4).focusMinutes ∧
    ((handlePhaseCompletion ⟨25, 5, 4⟩ ⟨false, true⟩
        ⟨⟨.running, .relax, 0, 300, 2, 4, true⟩, true, 1⟩).st.status = .waiting ∧
     (handlePhaseCompletion ⟨25, 5, 4⟩ ⟨false, true⟩
        ⟨⟨.running, .relax, 0, 300, 2, 4, true⟩, true, 1⟩).st.phase = .focus ∧
     (handlePhaseCompletion ⟨25, 5, 4⟩ ⟨false, true⟩
        ⟨⟨.running, .relax, 0, 300, 2, 4, true⟩, true, 1⟩).st.durationSeconds
        = (Plan.mk 25 5 4).focusMinutes * 60 ∧
     (handlePhaseCompletion ⟨25, 5, 4⟩ ⟨false, true⟩
        ⟨⟨.running, .relax, 0, 300, 2, 4, true⟩, true, 1⟩).st.remainingSeconds
        = (Plan.mk 25 5 4).focusMinutes * 60 ∧
     0 < (handlePhaseCompletion ⟨25, 5, 4⟩ ⟨false, true⟩
        ⟨⟨.running, .relax, 0, 300, 2, 4, true⟩, true, 1⟩).st.cyclesLeft ∧
     (performPrimaryAction ⟨25, 5, 4⟩ (handlePhaseCompletion ⟨25, 5, 4⟩ ⟨false, true⟩
        ⟨⟨.running, .relax, 0, 300, 2, 4, true⟩, true, 1⟩)).st.status = .running ∧
     (performPrimaryAction ⟨25, 5, 4⟩ (handlePhaseCompletion ⟨25, 5, 4⟩ ⟨false, true⟩
        ⟨⟨.running, .relax, 0, 300, 2, 4, true⟩, true, 1⟩)).st.phase = .focus ∧
     (performPrimaryAction ⟨25, 5, 4⟩ (handlePhaseCompletion ⟨25, 5, 4⟩ ⟨false, true⟩
        ⟨⟨.running, .relax, 0, 300, 2, 4, true⟩, true, 1⟩)).st.remainingSeconds
        = (Plan.mk 25 5 4).focusMinutes * 60) :=
  ⟨by decide, by decide, by decide, by decide, by decide, by decide,
    waiting_then_continue ⟨25, 5, 4⟩ ⟨false, true⟩
      ⟨⟨.running, .relax, 0, 300, 2, 4, true⟩, true, 1⟩
      (by decide) (by decide) (by decide) (by decide) (by decide) (by decide)⟩

/-! ### C5 -/

/-- C5: pausing then resuming a running timer leaves `remainingSeconds`,
`durationSeconds`, `phase`, `cyclesLeft` and `totalCycles` exactly as they
were; the pair ends running again (only `status`/`isRunning` moved, and they
are restored). -/
theorem pause_resume_frame (c : Core) (h : c.st.status = .running) :
    (resumeTimer (pauseTimer c)).st.remainingSeconds = c.st.remainingSeconds ∧
    (resumeTimer (pauseTimer c)).st.durationSeconds = c.st.durationSeconds ∧
    (resumeTimer (pauseTimer c)).st.phase = c.st.phase ∧
    (resumeTimer (pauseTimer c)).st.cyclesLeft = c.st.cyclesLeft ∧
    (resumeTimer (pauseTimer c)).st.totalCycles = c.st.totalCycles ∧
    (resumeTimer (pauseTimer c)).st.status = .running ∧
    (resumeTimer (pauseTimer c)).st.isRunning = true := by
  by_cases ht : c.tracked <;>
    simp [resumeTimer, pauseTimer, startTicker, clearTicker, ht]

/-- Witness for C5 on a mid-focus running state. -/
theorem pause_resume_frame_witness :
    (Core.mk ⟨.running, .focus, 87, 1500, 3, 4, true⟩ true 1).st.status = .running ∧
    ((resumeTimer (pauseTimer ⟨⟨.running, .focus, 87, 1500, 3, 4, true⟩, true, 1⟩)).st.remainingSeconds
      = (Core.mk ⟨.running, .focus, 87, 1500, 3, 4, true⟩ true 1).st.remainingSeconds ∧
     (resumeTimer (pauseTimer ⟨⟨.running, .focus, 87, 1500, 3, 4, true⟩, true, 1⟩)).st.durationSeconds
      = (Core.mk ⟨.running, .focus, 87, 1500, 3, 4, true⟩ true 1).st.durationSeconds ∧
     (resumeTimer (pauseTimer ⟨⟨.running, .focus, 87, 1500, 3, 4, true⟩, true, 1⟩)).st.phase
      = (Core.mk ⟨.running, .focus, 87, 1500, 3, 4, true⟩ true 1).st.phase ∧
     (resumeTimer (pauseTimer ⟨⟨.running, .focus, 87, 1500, 3, 4, true⟩, true, 1⟩)).st.cyclesLeft
      = (Core.mk ⟨.running, .focus, 87, 1500, 3, 4, true⟩ true 1).st.cyclesLeft ∧
     (resumeTimer (pauseTimer ⟨⟨.running, .focus, 87, 1500, 3, 4, true⟩, true, 1⟩)).st.totalCycles
      = (Core.mk ⟨.running, .focus, 87, 1500, 3, 4, true⟩ true 1).st.totalCycles ∧
     (resumeTimer (pauseTimer ⟨⟨.running, .focus, 87, 1500, 3, 4, true⟩, true, 1⟩)).st.status = .running ∧
     (resumeTimer (pauseTimer ⟨⟨.running, .focus, 87, 1500, 3, 4, true⟩, true, 1⟩)).st.isRunning = true) :=
  ⟨by decide, pause_resume_frame ⟨⟨.running, .focus, 87, 1500, 3, 4, true⟩, true, 1⟩ (by decide)⟩

/-! ### The running/ticker correlation invariant -/

/-- The module is "running" in three equivalent senses, and never has more
than one interval source alive; `tickerId` is non-null exactly when a source
is alive. -/
def TickerInv (c : Core) : Prop :=
  (c.st.status = .running ↔ c.st.isRunning = true) ∧
  (c.st.isRunning = true ↔ c.live = 1) ∧
  (c.tracked = true ↔ c.live = 1) ∧
  c.live ≤ 1

instance (c : Core) : Decidable (TickerInv c) := by
  unfold TickerInv
  infer_instance

theorem clearTicker_of_inv (c : Core) (h3 : c.tracked = true ↔ c.live = 1)
    (h4 : c.live ≤ 1) :
    clearTicker c = { c with tracked := false, live := 0 } := by
  obtain ⟨st, tr, lv⟩ := c
  have h4' : lv ≤ 1 := h4
  cases tr
  · have hne : ¬ lv = 1 := fun h => absurd (h3.mpr h) (by simp)
    have hlv : lv = 0 := by omega
    subst hlv
    simp [clearTicker]
  · have hlv : lv = 1 := h3.mp rfl
    subst hlv
    simp [clearTicker]

theorem startTicker_of_inv (c : Core) (h3 : c.tracked = true ↔ c.live = 1)
    (h4 : c.live ≤ 1) :
    startTicker c = { c with tracked := true, live := 1 } := by
  rw [startTicker, clearTicker_of_inv c h3 h4]

/-- Every reachable module state satisfies the ticker invariant. -/
theorem reachable_tickerInv (c : Core) (hc : Reachable c) : TickerInv c := by
  induction hc with
  | init plan =>
    refine ⟨?_, ?_, ?_, ?_⟩ <;> simp [initCore, initializeFromPlan]
  | primary plan c hc ih =>
    obtain ⟨⟨sst, sph, srem, sdur, scl, stc, srun⟩, tr, lv⟩ := c
    obtain ⟨i1, i2, i3, i4⟩ := ih
    simp only at i1 i2 i3 i4
    unfold performPrimaryAction pauseTimer resumeTimer startFocus startTicker clearTicker
    unfold TickerInv
    cases sst <;> cases tr <;> simp_all <;> omega
  | tick plan prefs c hc hlive ih =>
    obtain ⟨⟨sst, sph, srem, sdur, scl, stc, srun⟩, tr, lv⟩ := c
    obtain ⟨i1, i2, i3, i4⟩ := ih
    simp only at i1 i2 i3 i4 hlive
    have hlv : lv = 1 := by omega
    have htr : tr = true := i3.mpr hlv
    subst hlv htr
    unfold TickerInv
    simp only [handleTick, handlePhaseCompletion, startRelax, startFocus,
      prepareWaitingState, initializeFromPlan, startTicker, clearTicker]
    cases sph <;> split_ifs <;> simp_all
  | reset plan c hc ih =>
    obtain ⟨i1, i2, i3, i4⟩ := ih
    rw [show resetTimer plan c = { clearTicker c with st := initializeFromPlan plan } from rfl]
    rw [clearTicker_of_inv c i3 i4]
    refine ⟨?_, ?_, ?_, ?_⟩ <;> simp [initializeFromPlan]
  | apply plan c hc ih =>
    obtain ⟨i1, i2, i3, i4⟩ := ih
    rw [show applyPlanSettings plan c = { clearTicker c with st := initializeFromPlan plan } from rfl]
    rw [clearTicker_of_inv c i3 i4]
    refine ⟨?_, ?_, ?_, ?_⟩ <;> simp [initializeFromPlan]

/-! ### C7 -/

/-- C7: in every reachable module state, `status = running` iff
`isRunning = true` iff an interval source is alive; never more than one
interval source is alive (`startTicker` always clears first), `tickerId`
tracks the live source exactly, and clearing when no source is tracked is a
no-op. -/
theorem running_iff_ticker (c : Core) (hc : Reachable c) :
    (c.st.status = .running ↔ c.st.isRunning = true) ∧
    (c.st.isRunning = true ↔ c.live = 1) ∧
    c.live ≤ 1 ∧
    (c.tracked = true ↔ c.live = 1) ∧
    (c.tracked = false → clearTicker c = c) := by
  obtain ⟨i1, i2, i3, i4⟩ := reachable_tickerInv c hc
  exact ⟨i1, i2, i4, i3, fun h => by simp [clearTicker, h]⟩

/-- Witness for C7 at a reachable state: the running state right after
starting the default plan. -/
theorem running_iff_ticker_witness :
    ((performPrimaryAction ⟨25, 5, 4⟩ (initCore ⟨25, 5, 4⟩)).st.status = .running ↔
      (performPrimaryAction ⟨25, 5, 4⟩ (initCore ⟨25, 5, 4⟩)).st.isRunning = true) ∧
    ((performPrimaryAction ⟨25, 5, 4⟩ (initCore ⟨25, 5, 4⟩)).st.isRunning = true ↔
      (performPrimaryAction ⟨25, 5, 4⟩ (initCore ⟨25, 5, 4⟩)).live = 1) ∧
    (performPrimaryAction ⟨25, 5, 4⟩ (initCore ⟨25, 5, 4⟩)).live ≤ 1 ∧
    ((performPrimaryAction ⟨25, 5, 4⟩ (initCore ⟨25, 5, 4⟩)).tracked = true ↔
      (performPrimaryAction ⟨25, 5, 4⟩ (initCore ⟨25, 5, 4⟩)).live = 1) ∧
    ((performPrimaryAction ⟨25, 5, 4⟩ (initCore ⟨25, 5, 4⟩)).tracked = false →
      clearTicker (performPrimaryAction ⟨25, 5, 4⟩ (initCore ⟨25, 5, 4⟩)) =
        performPrimaryAction ⟨25, 5, 4⟩ (initCore ⟨25, 5, 4⟩)) :=
  running_iff_ticker (performPrimaryAction ⟨25, 5, 4⟩ (initCore ⟨25, 5, 4⟩))
    (Reachable.primary _ _ (Reachable.init _))

/-! ### C6 -/

/-- C6: from any reachable state (any status), `resetTimer` cancels the
active ticking source (none remain live, so no further ticks can fire) and
yields exactly the fresh initialization from the current plan. -/
theorem reset_spec (plan : Plan) (c : Core) (hc : Reachable c) :
    resetTimer plan c = initCore plan ∧
    (resetTimer plan c).st.status = .ready ∧
    (resetTimer plan c).st.phase = .focus ∧
    (resetTimer plan c).st.cyclesLeft = plan.cycles ∧
    (resetTimer plan c).st.totalCycles = plan.cycles ∧
    (resetTimer plan c).st.remainingSeconds = plan.focusMinutes * 60 ∧
    (resetTimer plan c).st.durationSeconds = plan.focusMinutes * 60 ∧
    (resetTimer plan c).st.isRunning = false ∧
    (resetTimer plan c).tracked = false ∧
    (resetTimer plan c).live = 0 := by
  obtain ⟨i1, i2, i3, i4⟩ := reachable_tickerInv c hc
  have h : resetTimer plan c = initCore plan := by
    rw [show resetTimer plan c = { clearTicker c with st := initializeFromPlan plan } from rfl]
    rw [clearTicker_of_inv c i3 i4]
    rfl
  rw [h]
  exact ⟨rfl, by simp [initCore, initializeFromPlan], by simp [initCore, initializeFromPlan],
    by simp [initCore, initializeFromPlan], by simp [initCore, initializeFromPlan],
    by simp [initCore, initializeFromPlan], by simp [initCore, initializeFromPlan],
    by simp [initCore, initializeFromPlan], by simp [initCore], by simp [initCore]⟩

/-- Witness for C6: resetting the running state reached by starting the
default plan restores the fresh state and leaves no live ticking source. -/
theorem reset_spec_witness :
    resetTimer ⟨25, 5, 4⟩ (performPrimaryAction ⟨25, 5, 4⟩ (initCore ⟨25, 5, 4⟩))
      = initCore ⟨25, 5, 4⟩ ∧
    (resetTimer ⟨25, 5, 4⟩ (performPrimaryAction ⟨25, 5, 4⟩
      (initCore ⟨25, 5, 4⟩))).st.status = .ready ∧
    (resetTimer ⟨25, 5, 4⟩ (performPrimaryAction ⟨25, 5, 4⟩
      (initCore ⟨25, 5, 4⟩))).st.phase = .focus ∧
    (resetTimer ⟨25, 5, 4⟩ (performPrimaryAction ⟨25, 5, 4⟩
      (initCore ⟨25, 5, 4⟩))).st.cyclesLeft = (Plan.mk 25 5 4).cycles ∧
    (resetTimer ⟨25, 5, 4⟩ (performPrimaryAction ⟨25, 5, 4⟩
      (initCore ⟨25, 5, 4⟩))).st.totalCycles = (Plan.mk 25 5 4).cycles ∧
    (resetTimer ⟨25, 5, 4⟩ (performPrimaryAction ⟨25, 5, 4⟩
      (initCore ⟨25, 5, 4⟩))).st.remainingSeconds = (Plan.mk 25 5 4).focusMinutes * 60 ∧
    (resetTimer ⟨25, 5, 4⟩ (performPrimaryAction ⟨25, 5, 4⟩
      (initCore ⟨25, 5, 4⟩))).st.durationSeconds = (Plan.mk 25 5 4).focusMinutes * 60 ∧
    (resetTimer ⟨25, 5, 4⟩ (performPrimaryAction ⟨25, 5, 4⟩
      (initCore ⟨25, 5, 4⟩))).st.isRunning = false ∧
    (resetTimer ⟨25, 5, 4⟩ (performPrimaryAction ⟨25, 5, 4⟩
      (initCore ⟨25, 5, 4⟩))).tracked = false ∧
    (resetTimer ⟨25, 5, 4⟩ (performPrimaryAction ⟨25, 5, 4⟩
      (initCore ⟨25, 5, 4⟩))).live = 0 :=
  reset_spec ⟨25, 5, 4⟩ (performPrimaryAction ⟨25, 5, 4⟩ (initCore ⟨25, 5, 4⟩))
    (Reachable.primary _ _ (Reachable.init _))

/-! ### C8 -/

/-- The bounds invariant the spec asserts, strengthened with the fact that in
the ready and waiting states the snapshotted duration is the plan's focus
duration (needed for `startFocus`, which keeps a non-zero `remainingSeconds`
while re-reading `durationSeconds` from the plan). -/
def BoundsInv (plan : Plan) (c : Core) : Prop :=
  0 ≤ c.st.remainingSeconds ∧
  c.st.remainingSeconds ≤ c.st.durationSeconds ∧
  0 ≤ c.st.cyclesLeft ∧
  c.st.cyclesLeft ≤ c.st.totalCycles ∧
  ((c.st.status = .ready ∨ c.st.status = .waiting) →
    c.st.durationSeconds = plan.focusMinutes * 60)

/-! The ticker bookkeeping never touches the `timerState` fields, so each
operation's effect on `timerState` can be read off through `.st`. -/

theorem clearTicker_st (c : Core) : (clearTicker c).st = c.st := by
  by_cases ht : c.tracked <;> simp [clearTicker, ht]

theorem startTicker_st (c : Core) : (startTicker c).st = c.st := by
  simp only [startTicker]
  exact clearTicker_st c

theorem pauseTimer_st (c : Core) :
    (pauseTimer c).st = { c.st with status := .paused, isRunning := false } := by
  simp [pauseTimer, clearTicker_st]

theorem resumeTimer_st (c : Core) :
    (resumeTimer c).st = { c.st with status := .running, isRunning := true } := by
  simp [resumeTimer, startTicker_st]

theorem startFocus_st (plan : Plan) (c : Core) :
    (startFocus plan c).st =
      { c.st with
        status := .running
        phase := .focus
        durationSeconds := plan.focusMinutes * 60
        remainingSeconds :=
          if c.st.remainingSeconds = 0 then plan.focusMinutes * 60
          else c.st.remainingSeconds
        isRunning := true } := by
  simp [startFocus, startTicker_st]

theorem startRelax_st (plan : Plan) (c : Core) :
    (startRelax plan c).st =
      { c.st with
        status := .running
        phase := .relax
        durationSeconds := plan.relaxMinutes * 60
        remainingSeconds := plan.relaxMinutes * 60
        isRunning := true } := by
  simp [startRelax, startTicker_st]

/-- The effect of `handlePhaseCompletion` on the `timerState` fields alone. -/
def completionSt (plan : Plan) (prefs : Preferences) (s : TimerState) : TimerState :=
  if s.phase = .focus then
    { s with
      status := .running
      phase := .relax
      durationSeconds := plan.relaxMinutes * 60
      remainingSeconds := plan.relaxMinutes * 60
      isRunning := true }
  else if max (s.cyclesLeft - 1) 0 ≤ 0 then
    initializeFromPlan plan
  else if prefs.autoCycle then
    { s with
      status := .running
      phase := .focus
      durationSeconds := plan.focusMinutes * 60
      remainingSeconds := plan.focusMinutes * 60
      cyclesLeft := max (s.cyclesLeft - 1) 0
      isRunning := true }
  else
    { s with
      status := .waiting
      phase := .focus
      durationSeconds := plan.focusMinutes * 60
      remainingSeconds := plan.focusMinutes * 60
      cyclesLeft := max (s.cyclesLeft - 1) 0
      isRunning := false }

theorem handlePhaseCompletion_st (plan : Plan) (prefs : Preferences) (c : Core) :
    (handlePhaseCompletion plan prefs c).st = completionSt plan prefs c.st := by
  by_cases hph : c.st.phase = .focus
  · simp [handlePhaseCompletion, completionSt, clearTicker_st, startRelax_st, hph]
  · by_cases hcl : max (c.st.cyclesLeft - 1) 0 ≤ 0
    · simp [handlePhaseCompletion, completionSt, clearTicker_st, hph, hcl]
    · by_cases hauto : prefs.autoCycle <;>
        simp [handlePhaseCompletion, completionSt, clearTicker_st, startFocus_st,
          prepareWaitingState, hph, hcl, hauto]

/-- The effect of `handleTick` on the `timerState` fields alone. -/
def tickSt (plan : Plan) (prefs : Preferences) (s : TimerState) : TimerState :=
  if s.remainingSeconds ≤ 0 then
    completionSt plan prefs s
  else
    let s : TimerState := { s with remainingSeconds := s.remainingSeconds - 1 }
    if s.remainingSeconds ≤ 0 then completionSt plan prefs s else s

theorem handleTick_st (plan : Plan) (prefs : Preferences) (c : Core) :
    (handleTick plan prefs c).st = tickSt plan prefs c.st := by
  by_cases h0 : c.st.remainingSeconds ≤ 0
  · simp [handleTick, tickSt, handlePhaseCompletion_st, h0]
  · by_cases h1 : c.st.remainingSeconds - 1 ≤ 0 <;>
      simp [handleTick, tickSt, handlePhaseCompletion_st, h0, h1]

theorem performPrimaryAction_st (plan : Plan) (c : Core) :
    (performPrimaryAction plan c).st =
      if c.st.status = .running then (pauseTimer c).st
      else if c.st.status = .paused then (resumeTimer c).st
      else (startFocus plan c).st := by
  rw [performPrimaryAction]
  split_ifs <;> rfl

theorem resetTimer_st (plan : Plan) (c : Core) :
    (resetTimer plan c).st = initializeFromPlan plan := rfl

theorem applyPlanSettings_st (plan : Plan) (c : Core) :
    (applyPlanSettings plan c).st = initializeFromPlan plan := rfl

/-- With a non-negative plan that does not change between operations, every
reachable state satisfies the bounds invariant. -/
theorem reachableFixed_boundsInv (plan : Plan) (hF : 0 ≤ plan.focusMinutes)
    (hR : 0 ≤ plan.relaxMinutes) (hC : 0 ≤ plan.cycles) (c : Core)
    (hc : ReachableFixed plan c) : BoundsInv plan c := by
  induction hc with
  | init =>
    refine ⟨?_, ?_, ?_, ?_, ?_⟩ <;> simp [initCore, initializeFromPlan] <;> assumption
  | primary c hc ih =>
    obtain ⟨i1, i2, i3, i4, i5⟩ := ih
    unfold BoundsInv
    rw [performPrimaryAction_st]
    split_ifs with h1 h2
    · rw [pauseTimer_st]
      exact ⟨i1, i2, i3, i4, by simp⟩
    · rw [resumeTimer_st]
      exact ⟨i1, i2, i3, i4, by simp⟩
    · rw [startFocus_st]
      have hdur : c.st.durationSeconds = plan.focusMinutes * 60 := by
        refine i5 ?_
        cases hs : c.st.status <;> simp_all
      refine ⟨?_, ?_, i3, i4, by simp⟩ <;> dsimp only <;> split_ifs <;> omega
  | tick prefs c hc hlive ih =>
    obtain ⟨i1, i2, i3, i4, i5⟩ := ih
    unfold BoundsInv
    rw [handleTick_st]
    simp only [tickSt, completionSt, initializeFromPlan]
    split_ifs <;> dsimp only <;>
      refine ⟨by omega, by omega, by omega, by omega, ?_⟩ <;>
      first
        | exact i5
        | simp
  | reset c hc ih =>
    unfold BoundsInv
    rw [resetTimer_st]
    refine ⟨?_, ?_, ?_, ?_, ?_⟩ <;> simp [initializeFromPlan] <;> assumption
  | apply c hc ih =>
    unfold BoundsInv
    rw [applyPlanSettings_st]
    refine ⟨?_, ?_, ?_, ?_, ?_⟩ <;> simp [initializeFromPlan] <;> assumption

/-- Counterexample to C8 as stated: initialize with a 25-minute focus plan,
shrink the plan store to a 1-minute focus plan without `applyPlanSettings`,
then press start.  The state is reachable, yet `remainingSeconds = 1500`
exceeds `durationSeconds = 60`. -/
theorem bounds_cex :
    Reachable (performPrimaryAction ⟨1, 5, 4⟩ (initCore ⟨25, 5, 4⟩)) ∧
    ¬ ((performPrimaryAction ⟨1, 5, 4⟩ (initCore ⟨25, 5, 4⟩)).st.remainingSeconds ≤
        (performPrimaryAction ⟨1, 5, 4⟩ (initCore ⟨25, 5, 4⟩)).st.durationSeconds) :=
  ⟨Reachable.primary _ _ (Reachable.init _), by decide⟩

/-- C8 (amended): provided the plan store's (non-negative) values do not
change between operations, every reachable state satisfies
`0 ≤ remainingSeconds ≤ durationSeconds` and `0 ≤ cyclesLeft ≤ totalCycles`.
(If the plan shrinks between operations without `applyPlanSettings`,
`remainingSeconds` can exceed `durationSeconds`, as `bounds_cex` shows.) -/
theorem bounds_invariant_fixed_plan (plan : Plan) (hF : 0 ≤ plan.focusMinutes)
    (hR : 0 ≤ plan.relaxMinutes) (hC : 0 ≤ plan.cycles) (c : Core)
    (hc : ReachableFixed plan c) :
    0 ≤ c.st.remainingSeconds ∧
    c.st.remainingSeconds ≤ c.st.durationSeconds ∧
    0 ≤ c.st.cyclesLeft ∧
    c.st.cyclesLeft ≤ c.st.totalCycles := by
  obtain ⟨i1, i2, i3, i4, _⟩ := reachableFixed_boundsInv plan hF hR hC c hc
  exact ⟨i1, i2, i3, i4⟩

/-- Witness for the amended C8 at a state two ticks into a started default
plan. -/
theorem bounds_invariant_fixed_plan_witness :
    (0 : Int) ≤ (Plan.mk 25 5 4).focusMinutes ∧
    (0 : Int) ≤ (Plan.mk 25 5 4).relaxMinutes ∧
    (0 : Int) ≤ (Plan.mk 25 5 4).cycles ∧
    (0 ≤ (handleTick ⟨25, 5, 4⟩ ⟨true, true⟩ (performPrimaryAction ⟨25, 5, 4⟩
        (initCore ⟨25, 5, 4⟩))).st.remainingSeconds ∧
     (handleTick ⟨25, 5, 4⟩ ⟨true, true⟩ (performPrimaryAction ⟨25, 5, 4⟩
        (initCore ⟨25, 5, 4⟩))).st.remainingSeconds ≤
       (handleTick ⟨25, 5, 4⟩ ⟨true, true⟩ (performPrimaryAction ⟨25, 5, 4⟩
        (initCore ⟨25, 5, 4⟩))).st.durationSeconds ∧
     0 ≤ (handleTick ⟨25, 5, 4⟩ ⟨true, true⟩ (performPrimaryAction ⟨25, 5, 4⟩
        (initCore ⟨25, 5, 4⟩))).st.cyclesLeft ∧
     (handleTick ⟨25, 5, 4⟩ ⟨true, true⟩ (performPrimaryAction ⟨25, 5, 4⟩
        (initCore ⟨25, 5, 4⟩))).st.cyclesLeft ≤
       (handleTick ⟨25, 5, 4⟩ ⟨true, true⟩ (performPrimaryAction ⟨25, 5, 4⟩
        (initCore ⟨25, 5, 4⟩))).st.totalCycles) :=
  ⟨by decide, by decide, by decide,
    bounds_invariant_fixed_plan ⟨25, 5, 4⟩ (by decide) (by decide) (by decide) _
      (ReachableFixed.tick ⟨true, true⟩ _
        (ReachableFixed.primary _ ReachableFixed.init) (by decide))⟩

/-! ### C9 -/

theorem calcTR_focus (plan : Plan) (s : TimerState) (hs : ¬ s.status = .ready)
    (hph : s.phase = .focus) :
    calculateTotalRemaining plan s =
      s.remainingSeconds + plan.relaxMinutes * 60 +
        max (max s.cyclesLeft 0 - 1) 0 *
          (plan.focusMinutes * 60 + plan.relaxMinutes * 60) := by
  simp [calculateTotalRemaining, hs, hph]

theorem calcTR_relax (plan : Plan) (s : TimerState) (hs : ¬ s.status = .ready)
    (hph : s.phase = .relax) :
    calculateTotalRemaining plan s =
      s.remainingSeconds +
        max (max s.cyclesLeft 0 - 1) 0 *
          (plan.focusMinutes * 60 + plan.relaxMinutes * 60) := by
  simp [calculateTotalRemaining, hs, hph]

set_option maxRecDepth 20000 in
/-- Counterexample to C9 as stated: with the plan
`{focusMinutes = 1, relaxMinutes = 1, cycles = 2}` and auto-cycle on, start
the timer and fire 59 ticks; the timer is running the focus phase with 1
second left of its 60-second segment.  The 60th tick crosses the focus→relax
boundary, yet `totalRemainingSeconds` drops by exactly 1, not by the size of
the completed segment (60). -/
theorem totalRemaining_boundary_cex :
    ticks ⟨1, 1, 2⟩ ⟨true, true⟩ 59
        (performPrimaryAction ⟨1, 1, 2⟩ (initCore ⟨1, 1, 2⟩)) =
      ⟨⟨.running, .focus, 1, 60, 2, 2, true⟩, true, 1⟩ ∧
    (handleTick ⟨1, 1, 2⟩ ⟨true, true⟩ ⟨⟨.running, .focus, 1, 60, 2, 2, true⟩, true, 1⟩).st.phase
      = .relax ∧
    calculateTotalRemaining ⟨1, 1, 2⟩ (⟨.running, .focus, 1, 60, 2, 2, true⟩ : TimerState) -
      calculateTotalRemaining ⟨1, 1, 2⟩
        (handleTick ⟨1, 1, 2⟩ ⟨true, true⟩
          ⟨⟨.running, .focus, 1, 60, 2, 2, true⟩, true, 1⟩).st = 1 ∧
    (TimerState.mk .running .focus 1 60 2 2 true).durationSeconds = 60 ∧
    (1 : Int) ≠ 60 := by
  refine ⟨?_, by decide, by decide, by decide, by decide⟩
  decide

/-- C9 (amended): while the timer is running with the plan unchanged,
`totalRemainingSeconds` decreases by exactly 1 on every tick — including
ticks that cross a focus→relax boundary or complete a non-final cycle —
with the sole exception of the tick that completes the final cycle of the
plan (where the state re-initializes and the total resets to the full plan). -/
theorem totalRemaining_tick (plan : Plan) (prefs : Preferences) (c : Core)
    (hrun : c.st.status = .running) (hrem : 1 ≤ c.st.remainingSeconds)
    (hfin : ¬ (c.st.phase = .relax ∧ c.st.remainingSeconds = 1 ∧ c.st.cyclesLeft ≤ 1)) :
    calculateTotalRemaining plan (handleTick plan prefs c).st =
      calculateTotalRemaining plan c.st - 1 := by
  obtain ⟨⟨sst, sph, srem, sdur, scl, stc, srun⟩, tr, lv⟩ := c
  simp only at hrun hrem hfin
  subst hrun
  rw [handleTick_st]
  by_cases hone : srem = 1
  · subst hone
    cases sph
    · simp [tickSt, completionSt]
      rw [calcTR_relax plan _ (by simp) (by simp), calcTR_focus plan _ (by simp) (by simp)]
      dsimp only
      ring
    · have hcl : 2 ≤ scl := by
        simp at hfin
        omega
      have m1 : max (max scl 0 - 1) 0 = scl - 1 := by omega
      have m2 : max (max (max (scl - 1) 0) 0 - 1) 0 = scl - 2 := by omega
      have hne : ¬ max (scl - 1 : Int) 0 ≤ 0 := by omega
      by_cases hauto : prefs.autoCycle
      · simp [tickSt, completionSt, hauto, hne]
        rw [calcTR_focus plan _ (by simp) (by simp), calcTR_relax plan _ (by simp) (by simp)]
        dsimp only
        rw [m1, m2]
        ring
      · simp [tickSt, completionSt, hauto, hne]
        rw [calcTR_focus plan _ (by simp) (by simp), calcTR_relax plan _ (by simp) (by simp)]
        dsimp only
        rw [m1, m2]
        ring
  · have h2 : 2 ≤ srem := by omega
    simp [tickSt, show ¬ srem ≤ 0 by omega, show ¬ srem - 1 ≤ 0 by omega]
    cases sph
    · rw [calcTR_focus plan _ (by simp) (by simp), calcTR_focus plan _ (by simp) (by simp)]
      dsimp only
      ring
    · rw [calcTR_relax plan _ (by simp) (by simp), calcTR_relax plan _ (by simp) (by simp)]
      dsimp only
      ring

/-- Witness for the amended C9: a mid-focus tick (10 seconds left) drops the
total by exactly 1. -/
theorem totalRemaining_tick_witness :
    (Core.mk ⟨.running, .focus, 10, 60, 2, 2, true⟩ true 1).st.status = .running ∧
    1 ≤ (Core.mk ⟨.running, .focus, 10, 60, 2, 2, true⟩ true 1).st.remainingSeconds ∧
    ¬ ((Core.mk ⟨.running, .focus, 10, 60, 2, 2, true⟩ true 1).st.phase = .relax ∧
        (Core.mk ⟨.running, .focus, 10, 60, 2, 2, true⟩ true 1).st.remainingSeconds = 1 ∧
        (Core.mk ⟨.running, .focus, 10, 60, 2, 2, true⟩ true 1).st.cyclesLeft ≤ 1) ∧
    calculateTotalRemaining ⟨1, 1, 2⟩
        (handleTick ⟨1, 1, 2⟩ ⟨true, true⟩
          ⟨⟨.running, .focus, 10, 60, 2, 2, true⟩, true, 1⟩).st =
      calculateTotalRemaining ⟨1, 1, 2⟩
        (Core.mk ⟨.running, .focus, 10, 60, 2, 2, true⟩ true 1).st - 1 :=
  ⟨by decide, by decide, by decide,
    totalRemaining_tick ⟨1, 1, 2⟩ ⟨true, true⟩
      ⟨⟨.running, .focus, 10, 60, 2, 2, true⟩, true, 1⟩
      (by decide) (by decide) (by decide)⟩

/-! ### C10 -/

/-- C10: in the waiting state produced by `prepareWaitingState` (which
pre-loads `remainingSeconds` with the full focus duration), the derived
total equals `cyclesLeft × (focusSeconds + relaxSeconds)` computed from the
current plan — the same value the ready-state branch of
`calculateTotalRemaining` would give. -/
theorem waiting_totalRemaining (plan : Plan) (c : Core) (hcl : 1 ≤ c.st.cyclesLeft) :
    calculateTotalRemaining plan (prepareWaitingState plan c).st =
      c.st.cyclesLeft * (plan.focusMinutes * 60 + plan.relaxMinutes * 60) ∧
    calculateTotalRemaining plan (prepareWaitingState plan c).st =
      calculateTotalRemaining plan
        { (prepareWaitingState plan c).st with status := .ready } := by
  have m0 : max c.st.cyclesLeft 0 = c.st.cyclesLeft := by omega
  have m1 : max (max c.st.cyclesLeft 0 - 1) 0 = c.st.cyclesLeft - 1 := by omega
  constructor <;>
    · simp [calculateTotalRemaining, prepareWaitingState, m0, m1]
      rw [show ((c.st.cyclesLeft - 1) ⊔ 0 : Int) = c.st.cyclesLeft - 1 from by omega]
      ring

/-- Witness for C10 on a waiting state with 2 cycles left of the default
plan: the total is `2 × (1500 + 300)`. -/
theorem waiting_totalRemaining_witness :
    1 ≤ (Core.mk ⟨.running, .relax, 0, 300, 2, 4, true⟩ true 1).st.cyclesLeft ∧
    (calculateTotalRemaining ⟨25, 5, 4⟩
        (prepareWaitingState ⟨25, 5, 4⟩
          ⟨⟨.running, .relax, 0, 300, 2, 4, true⟩, true, 1⟩).st =
      (Core.mk ⟨.running, .relax, 0, 300, 2, 4, true⟩ true 1).st.cyclesLeft *
        ((Plan.mk 25 5 4).focusMinutes * 60 + (Plan.mk 25 5 4).relaxMinutes * 60) ∧
     calculateTotalRemaining ⟨25, 5, 4⟩
        (prepareWaitingState ⟨25, 5, 4⟩
          ⟨⟨.running, .relax, 0, 300, 2, 4, true⟩, true, 1⟩).st =
      calculateTotalRemaining ⟨25, 5, 4⟩
        { (prepareWaitingState ⟨25, 5, 4⟩
            ⟨⟨.running, .relax, 0, 300, 2, 4, true⟩, true, 1⟩).st with status := .ready }) :=
  ⟨by decide,
    waiting_totalRemaining ⟨25, 5, 4⟩
      ⟨⟨.running, .relax, 0, 300, 2, 4, true⟩, true, 1⟩ (by decide)⟩

end Pomodoro
